import Mathlib

/-!
Shallow embedding of the rewise-server backend (src/index.js, the current
server document): data model (users, lessons, favorites, reports) and the
route handlers relevant to the verified claims.  MongoDB collections are
modelled as Lean lists; `findOne` is first match, `updateOne` modifies the
first match, `deleteOne` removes the first match, `insertOne` appends.
JavaScript string truthiness (`if (title)`) is modelled explicitly: a
present-but-empty string is falsy.
-/

namespace Rewise

/-- Mongo updateOne on a list collection: apply `f` to the first element
satisfying `p`, leave the rest unchanged (no-op when nothing matches). -/
def updateFirst (p : α → Bool) (f : α → α) : List α → List α
  | [] => []
  | x :: xs => if p x then f x :: xs else x :: updateFirst p f xs

/-- Mongo deleteOne on a list collection: remove the first element satisfying
`p` (no-op when nothing matches). -/
def deleteFirst (p : α → Bool) : List α → List α
  | [] => []
  | x :: xs => if p x then xs else x :: deleteFirst p xs

/-- Validity check for a hex string ObjectId: 24 hex characters (ObjectId.isValid). -/
def isValidObjectId (s : String) : Bool :=
  s.length == 24 && s.data.all fun c =>
    c.isDigit || ('a' ≤ c && c ≤ 'f') || ('A' ≤ c && c ≤ 'F')

/-- A document of the `users` collection (schema comment in index.js). -/
structure User where
  name : String
  email : String
  photo : String
  uid : String
  role : String
  favorites : List String
  isPremium : Bool
  createdAt : Nat
  deriving Repr, DecidableEq

/-- A document of the `lessons` collection (schema comment in index.js).
`id` models the Mongo `_id` as its hex string. -/
structure Lesson where
  id : String
  title : String
  description : String
  category : String
  emotionalTone : String
  image : String
  visibility : String
  accessLevel : String
  creatorEmail : String
  likesCount : Int
  likes : List String
  isFeatured : Bool
  isReviewed : Bool
  createdAt : Nat
  deriving Repr, DecidableEq

/-- A document of the `favorites` collection. `fid` models `_id`. -/
structure Favorite where
  fid : Nat
  userEmail : String
  lessonId : String
  createdAt : Nat
  deriving Repr, DecidableEq

/-- A document of the `reports` collection. `rid` models `_id`. -/
structure Report where
  rid : Nat
  lessonId : String
  reason : String
  reporterEmail : String
  createdAt : Nat
  deriving Repr, DecidableEq

/-- The claims of a successfully verified Firebase id token
(`admin.auth().verifyIdToken`). -/
structure Decoded where
  email : String
  uid : String
  deriving Repr, DecidableEq

/-- The possible states of the `Authorization` header as the handlers see
it: absent (or not `Bearer `), present but the token fails verification,
or verified with decoded claims. -/
inductive AuthHeader where
  | absent
  | invalid
  | valid (d : Decoded)
  deriving Repr, DecidableEq

/-- The shape of req.user as attached by the `verifyToken` middleware. -/
structure ReqUser where
  email : String
  uid : String
  role : String
  isPremium : Bool
  deriving Repr, DecidableEq

/-- The `verifyToken` middleware of the current server (index.js lines
549-581): on a missing/invalid credential it responds 401; on success it
looks up the local user by the verified email and attaches
the fields email, uid, role, isPremium to the request, defaulting
`role="user"`, `isPremium=false` when no user record exists.  It performs
no write: the returned collection is the input collection. -/
def verifyToken (users : List User) (auth : AuthHeader) :
    Option ReqUser × List User :=
  match auth with
  | .absent => (none, users)
  | .invalid => (none, users)
  | .valid d =>
    let user := users.find? fun u => u.email == d.email
    (some { email := d.email
            uid := d.uid
            role := match user with | some u => u.role | none => "user"
            isPremium := match user with | some u => u.isPremium | none => false },
     users)

/-- Responses of `GET /api/lessons/:id` (index.js lines 1266-1362),
mirroring each `res.status(...).json(...)` exit. -/
inductive GetLessonResp where
  | invalidId
  | notFound
  | privateAuthRequired
  | privateRestricted
  | privateInvalidToken
  | premiumAuthRequired
  | premiumNotPremium
  | premiumInvalidToken
  | ok (lesson : Lesson) (author : Option User) (lessonsCreated : Nat)
  deriving Repr, DecidableEq

/-- Denial reasons of the access policy (spec taxonomy). -/
inductive DenialClass where
  | PrivateContent
  | PremiumRequired
  deriving Repr, DecidableEq

/-- The denial class a `GET /api/lessons/:id` response reports: the three
private-branch 403s are `PrivateContent`, the three premium-branch 403s
(all carrying `isPremiumContent:true`) are `PremiumRequired`. -/
def GetLessonResp.denial : GetLessonResp → Option DenialClass
  | .privateAuthRequired => some .PrivateContent
  | .privateRestricted => some .PrivateContent
  | .privateInvalidToken => some .PrivateContent
  | .premiumAuthRequired => some .PremiumRequired
  | .premiumNotPremium => some .PremiumRequired
  | .premiumInvalidToken => some .PremiumRequired
  | _ => none

/-- Handler of `GET /api/lessons/:id` (index.js lines 1266-1362): validate the id,
find the lesson, run the visibility check (private lessons require a
verified caller who is the creator or an admin), then the premium check
(premium lessons require a verified caller whose user record has
`isPremium` true), then return the lesson joined with an author summary. -/
def getLessonById (users : List User) (lessons : List Lesson)
    (idParam : String) (auth : AuthHeader) : GetLessonResp :=
  if !isValidObjectId idParam then .invalidId
  else
    match lessons.find? (fun l => l.id == idParam) with
    | none => .notFound
    | some lesson =>
      let privCheck : Option GetLessonResp :=
        if lesson.visibility == "private" then
          match auth with
          | .absent => some .privateAuthRequired
          | .invalid => some .privateInvalidToken
          | .valid d =>
            let user := users.find? fun u => u.email == d.email
            let isCreator := lesson.creatorEmail == d.email
            let isAdmin := match user with | some u => u.role == "admin" | none => false
            if !isCreator && !isAdmin then some .privateRestricted else none
        else none
      match privCheck with
      | some r => r
      | none =>
        let premCheck : Option GetLessonResp :=
          if lesson.accessLevel == "premium" then
            match auth with
            | .absent => some .premiumAuthRequired
            | .invalid => some .premiumInvalidToken
            | .valid d =>
              match users.find? (fun u => u.email == d.email) with
              | none => some .premiumNotPremium
              | some u => if !u.isPremium then some .premiumNotPremium else none
          else none
        match premCheck with
        | some r => r
        | none =>
          let author := users.find? fun u => u.email == lesson.creatorEmail
          let lessonsCount := lessons.countP fun l => l.creatorEmail == lesson.creatorEmail
          .ok lesson author lessonsCount

/-- Responses of `POST /api/lessons/:id/like` (index.js lines 1445-1493). -/
inductive LikeResp where
  | invalidId
  | notFound
  | liked
  | unliked
  deriving Repr, DecidableEq

/-- Handler of `POST /api/lessons/:id/like` (index.js lines 1445-1493):
find the lesson; if the caller's email is in `likes`, pull it and
decrement `likesCount`; otherwise `$addToSet` it and increment
`likesCount`.  `$pull` removes every occurrence; `$addToSet` appends only
when absent. -/
def toggleLike (lessons : List Lesson) (userEmail : String)
    (idParam : String) : LikeResp × List Lesson :=
  if !isValidObjectId idParam then (.invalidId, lessons)
  else
    match lessons.find? (fun l => l.id == idParam) with
    | none => (.notFound, lessons)
    | some lesson =>
      if lesson.likes.contains userEmail then
        (.unliked,
         updateFirst (fun l => l.id == idParam)
           (fun l => { l with
              likes := l.likes.filter fun e => e != userEmail
              likesCount := l.likesCount - 1 }) lessons)
      else
        (.liked,
         updateFirst (fun l => l.id == idParam)
           (fun l => { l with
              likes := if l.likes.contains userEmail then l.likes else l.likes ++ [userEmail]
              likesCount := l.likesCount + 1 }) lessons)

/-- The body of a `PATCH /api/lessons/:id` request: each field is absent
(undefined) or a value.  String fields pass through JavaScript truthiness
(falsy when empty), `image` is set whenever it is not undefined, and the
moderation flags are applied only for admins. -/
structure PatchBody where
  title : Option String
  description : Option String
  category : Option String
  emotionalTone : Option String
  image : Option String
  visibility : Option String
  accessLevel : Option String
  isFeatured : Option Bool
  isReviewed : Option Bool
  deriving Repr, DecidableEq

/-- JavaScript truthiness of a possibly-absent string: truthy when present
and not the empty string. -/
def truthyStr : Option String → Bool
  | some s => !(s == "")
  | none => false

/-- Helper for `if (field) updateFields.field = field`: keep the old value
unless the new one is present and truthy. -/
def setIfTruthy (old : String) : Option String → String
  | some s => if s == "" then old else s
  | none => old

/-- The `$set` document built by `PATCH /api/lessons/:id` applied to a
lesson: truthy string fields overwrite, `image` overwrites whenever
present, and `isFeatured`/`isReviewed` overwrite only when `isAdmin`. -/
def applyPatch (l : Lesson) (b : PatchBody) (isAdmin : Bool) : Lesson :=
  { l with
    title := setIfTruthy l.title b.title
    description := setIfTruthy l.description b.description
    category := setIfTruthy l.category b.category
    emotionalTone := setIfTruthy l.emotionalTone b.emotionalTone
    image := match b.image with | some s => s | none => l.image
    visibility := setIfTruthy l.visibility b.visibility
    accessLevel := setIfTruthy l.accessLevel b.accessLevel
    isFeatured := if isAdmin then (match b.isFeatured with | some v => v | none => l.isFeatured) else l.isFeatured
    isReviewed := if isAdmin then (match b.isReviewed with | some v => v | none => l.isReviewed) else l.isReviewed }

/-- Responses of `PATCH /api/lessons/:id` (index.js lines 1496-1569).
`serverError` is the 500 from the catch block, reached when `updateOne`
throws — in particular when the built update document is empty and
MongoDB rejects `$set: ` with an empty document. -/
inductive PatchResp where
  | invalidId
  | notFound
  | forbidden
  | premiumDenied
  | serverError
  | ok
  deriving Repr, DecidableEq

/-- Emptiness of the `$set` document built by `PATCH /api/lessons/:id`:
no string field survives JS truthiness, `image` is undefined, and (for
admins) neither moderation flag is present.  With an empty document the
driver's `updateOne` throws and the handler responds 500. -/
def patchSetEmpty (b : PatchBody) (isAdmin : Bool) : Bool :=
  !truthyStr b.title && !truthyStr b.description && !truthyStr b.category &&
  !truthyStr b.emotionalTone && b.image.isNone && !truthyStr b.visibility &&
  !truthyStr b.accessLevel &&
  (!isAdmin || (b.isFeatured.isNone && b.isReviewed.isNone))

/-- Handler of `PATCH /api/lessons/:id` (index.js lines 1496-1569): find
the lesson, require creator or admin, build the update from the allowed
fields (moderation flags only for admins), reject `accessLevel="premium"`
from a non-premium caller, then run `updateOne` with the built `$set`
document: when that document is empty MongoDB raises a server error and
the catch block responds 500 with the lesson untouched, otherwise the
update is applied. -/
def patchLesson (lessons : List Lesson) (reqUser : ReqUser)
    (idParam : String) (b : PatchBody) : PatchResp × List Lesson :=
  if !isValidObjectId idParam then (.invalidId, lessons)
  else
    match lessons.find? (fun l => l.id == idParam) with
    | none => (.notFound, lessons)
    | some lesson =>
      let isCreator := lesson.creatorEmail == reqUser.email
      let isAdmin := reqUser.role == "admin"
      if !isCreator && !isAdmin then (.forbidden, lessons)
      else if b.accessLevel == some "premium" && !reqUser.isPremium then
        (.premiumDenied, lessons)
      else if patchSetEmpty b isAdmin then (.serverError, lessons)
      else
        (.ok, updateFirst (fun l => l.id == idParam)
          (fun l => applyPatch l b isAdmin) lessons)

/-- Responses of `DELETE /api/lessons/:id` (index.js lines 1572-1609). -/
inductive DeleteResp where
  | invalidId
  | notFound
  | forbidden
  | ok
  deriving Repr, DecidableEq

/-- Handler of `DELETE /api/lessons/:id` (index.js lines 1572-1609): find
the lesson, require creator or admin, then `deleteOne` it.  Reports are
untouched. -/
def deleteLesson (lessons : List Lesson) (reqUser : ReqUser)
    (idParam : String) : DeleteResp × List Lesson :=
  if !isValidObjectId idParam then (.invalidId, lessons)
  else
    match lessons.find? (fun l => l.id == idParam) with
    | none => (.notFound, lessons)
    | some lesson =>
      let isCreator := lesson.creatorEmail == reqUser.email
      let isAdmin := reqUser.role == "admin"
      if !isCreator && !isAdmin then (.forbidden, lessons)
      else (.ok, deleteFirst (fun l => l.id == idParam) lessons)

/-- A fresh `_id` for an inserted favorite record: one more than the
largest id in the collection (Mongo generates a unique ObjectId). -/
def freshFid (favorites : List Favorite) : Nat :=
  (favorites.map (·.fid)).foldr max 0 + 1

/-- Responses of `POST /api/lessons/:id/favorite` (index.js lines 1612-1669). -/
inductive FavResp where
  | invalidId
  | notFound
  | removed
  | added
  deriving Repr, DecidableEq

/-- Handler of `POST /api/lessons/:id/favorite` (index.js lines
1612-1669): require the lesson to exist; if a favorites record for
(caller, lesson) exists, `deleteOne` it by `_id` and `$pull` the id string
from the caller's `favorites` array; otherwise insert a record and
`$addToSet` the id string. -/
def toggleFavorite (users : List User) (favorites : List Favorite)
    (lessons : List Lesson) (userEmail : String) (idParam : String)
    (now : Nat) : FavResp × List User × List Favorite :=
  if !isValidObjectId idParam then (.invalidId, users, favorites)
  else
    match lessons.find? (fun l => l.id == idParam) with
    | none => (.notFound, users, favorites)
    | some _ =>
      match favorites.find? (fun f => f.userEmail == userEmail && f.lessonId == idParam) with
      | some existingFavorite =>
        (.removed,
         updateFirst (fun u => u.email == userEmail)
           (fun u => { u with favorites := u.favorites.filter fun s => s != idParam }) users,
         deleteFirst (fun f => f.fid == existingFavorite.fid) favorites)
      | none =>
        (.added,
         updateFirst (fun u => u.email == userEmail)
           (fun u => { u with favorites :=
              if u.favorites.contains idParam then u.favorites else u.favorites ++ [idParam] }) users,
         favorites ++ [{ fid := freshFid favorites
                         userEmail := userEmail
                         lessonId := idParam
                         createdAt := now }])

/-- The body of `POST /api/users/:email`. -/
structure CreateUserBody where
  name : Option String
  photo : Option String
  uid : Option String
  deriving Repr, DecidableEq

/-- JavaScript `x || d` for a possibly-absent string: the default when
absent or empty. -/
def strOrDefault (o : Option String) (d : String) : String :=
  match o with
  | some s => if s == "" then d else s
  | none => d

/-- Responses of `POST /api/users/:email` (index.js lines 774-812). -/
inductive CreateUserResp where
  | forbidden
  | alreadyExists (u : User)
  | created (u : User)
  deriving Repr, DecidableEq

/-- Handler of `POST /api/users/:email` (index.js lines 774-812): reject
with 403 when the path email differs from the authenticated caller's
email; return the existing record unchanged when one exists; otherwise
insert a new record with `role="user"`, `isPremium=false`, empty
favorites. -/
def createUser (users : List User) (reqUser : ReqUser)
    (emailParam : String) (body : CreateUserBody) (now : Nat) :
    CreateUserResp × List User :=
  if !(emailParam == reqUser.email) then (.forbidden, users)
  else
    match users.find? (fun u => u.email == emailParam) with
    | some existingUser => (.alreadyExists existingUser, users)
    | none =>
      let newUser : User :=
        { name := strOrDefault body.name "Anonymous"
          email := emailParam
          photo := strOrDefault body.photo ""
          uid := strOrDefault body.uid ""
          role := "user"
          favorites := []
          isPremium := false
          createdAt := now }
      (.created newUser, users ++ [newUser])

/-- A Stripe webhook delivery as the handler sees it: whether
`stripe.webhooks.constructEvent` accepts the signature, the event type,
and the two places the email may live (`metadata.userEmail`,
`client_reference_id`); `none` also covers a falsy (empty) value. -/
structure StripeDelivery where
  sigValid : Bool
  eventType : String
  metaUserEmail : Option String
  clientReferenceId : Option String
  deriving Repr, DecidableEq

/-- Responses of `POST /api/stripe/webhook` (index.js lines 430-471). -/
inductive WebhookResp where
  | badRequest
  | received
  deriving Repr, DecidableEq

/-- Handler of `POST /api/stripe/webhook` (index.js lines 430-471): a
signature failure is a 400 with no state change; on a verified
`checkout.session.completed` event the email is taken from
`metadata.userEmail` falling back to `client_reference_id`, and
`updateOne` sets `isPremium` on that user; a throwing update is caught
and logged (`updateFails` models it), and `received:true` is returned on
every verified path. -/
def stripeWebhook (users : List User) (ev : StripeDelivery)
    (updateFails : Bool) : WebhookResp × List User :=
  if !ev.sigValid then (.badRequest, users)
  else
    if ev.eventType == "checkout.session.completed" then
      match ev.metaUserEmail.or ev.clientReferenceId with
      | some userEmail =>
        if updateFails then (.received, users)
        else
          (.received,
           updateFirst (fun u => u.email == userEmail)
             (fun u => { u with isPremium := true }) users)
      | none => (.received, users)
    else (.received, users)

/-- A report row produced by the `GET /api/admin/reports` aggregation:
the report joined with its lesson, the `lesson` field absent when the
lesson no longer exists. -/
structure ReportJoined where
  rid : Nat
  lessonId : String
  reason : String
  reporterEmail : String
  createdAt : Nat
  lesson : Option Lesson
  deriving Repr, DecidableEq

/-- The `$lookup` + `$unwind` (preserveNullAndEmptyArrays) stage for one
report: one row per matching lesson, or a single row with `lesson := none`
when no lesson matches. -/
def lookupUnwindPreserve (lessons : List Lesson) (r : Report) : List ReportJoined :=
  match lessons.filter (fun l => l.id == r.lessonId) with
  | [] => [{ rid := r.rid, lessonId := r.lessonId, reason := r.reason
             reporterEmail := r.reporterEmail, createdAt := r.createdAt
             lesson := none }]
  | ms => ms.map fun l =>
      { rid := r.rid, lessonId := r.lessonId, reason := r.reason
        reporterEmail := r.reporterEmail, createdAt := r.createdAt
        lesson := some l }

/-- Responses of `GET /api/admin/reports` (index.js lines 623-667). -/
inductive ListReportsResp where
  | invalidId
  | ok (rows : List ReportJoined)
  deriving Repr, DecidableEq

/-- Handler of `GET /api/admin/reports` (index.js lines 623-667): an
aggregation that optionally filters by lesson id, left-joins each report
with its lesson (`$unwind` with preserveNullAndEmptyArrays keeps reports
whose lesson was deleted, with the `lesson` field absent), and sorts by
report `createdAt` descending. -/
def listReports (reports : List Report) (lessons : List Lesson)
    (lessonIdFilter : Option String) : ListReportsResp :=
  match lessonIdFilter with
  | some lid =>
    if !isValidObjectId lid then .invalidId
    else
      .ok (((reports.filter (fun r => r.lessonId == lid)).flatMap
              (lookupUnwindPreserve lessons)).mergeSort
            fun a b => Nat.ble b.createdAt a.createdAt)
  | none =>
    .ok ((reports.flatMap (lookupUnwindPreserve lessons)).mergeSort
          fun a b => Nat.ble b.createdAt a.createdAt)

/-- A row of the `GET /api/admin/reported-lessons` aggregation. -/
structure ReportedLessonRow where
  id : String
  title : String
  creatorEmail : String
  reportCount : Nat
  deriving Repr, DecidableEq

/-- Handler of `GET /api/admin/reported-lessons` (index.js lines 700-736):
group reports by `lessonId` with a count, `$lookup` the lesson, `$unwind`
without preserveNullAndEmptyArrays (groups whose lesson no longer exists
are dropped), and project id, title, creatorEmail, reportCount. -/
def aggregatedReportedLessons (reports : List Report)
    (lessons : List Lesson) : List ReportedLessonRow :=
  ((reports.map (·.lessonId)).dedup).flatMap fun gid =>
    (lessons.filter (fun l => l.id == gid)).map fun l =>
      { id := l.id, title := l.title, creatorEmail := l.creatorEmail
        reportCount := reports.countP fun r => r.lessonId == gid }

/-- A caller the visibility check of `GET /api/lessons/:id` turns away:
the header is absent, the token is invalid, or the verified caller is
neither the lesson's creator nor an admin. -/
def visibilityDenied (users : List User) (lesson : Lesson) : AuthHeader → Prop
  | .absent => True
  | .invalid => True
  | .valid d =>
    lesson.creatorEmail ≠ d.email ∧
    ∀ u, users.find? (fun x => x.email == d.email) = some u → u.role ≠ "admin"

/- Concrete objects shared by the witness theorems. -/

/-- A concrete well-formed ObjectId string. -/
def wOid : String := "507f1f77bcf86cd799439011"

/-- A second concrete well-formed ObjectId string. -/
def wOid2 : String := "507f1f77bcf86cd799439022"

/-- A concrete private premium lesson created by `creator@x.com`. -/
def wLesson : Lesson :=
  { id := wOid
    title := "t"
    description := "d"
    category := "grief"
    emotionalTone := "calm"
    image := ""
    visibility := "private"
    accessLevel := "premium"
    creatorEmail := "creator@x.com"
    likesCount := 0
    likes := []
    isFeatured := false
    isReviewed := false
    createdAt := 5 }

/-- A concrete non-premium non-admin user. -/
def wUser : User :=
  { name := "n"
    email := "a@x.com"
    photo := ""
    uid := "u1"
    role := "user"
    favorites := []
    isPremium := false
    createdAt := 1 }

/-- A concrete non-premium user who is an admin and the creator of
`wLesson`. -/
def wCreatorAdmin : User :=
  { name := "c"
    email := "creator@x.com"
    photo := ""
    uid := "u2"
    role := "admin"
    favorites := []
    isPremium := false
    createdAt := 1 }

/-- C1: in `GET /api/lessons/:id`, for a lesson with `visibility=private`
and `accessLevel=premium`, every caller turned away by the visibility
check (absent, invalid, or neither creator nor admin) receives a
PrivateContent denial — never the PremiumRequired denial: the visibility
check is evaluated strictly before the access-tier check. -/
theorem getLessonById_private_premium_visibility_first
    (users : List User) (lessons : List Lesson) (idParam : String)
    (auth : AuthHeader) (lesson : Lesson)
    (hvalid : isValidObjectId idParam = true)
    (hfind : lessons.find? (fun l => l.id == idParam) = some lesson)
    (hvis : lesson.visibility = "private")
    (hacc : lesson.accessLevel = "premium")
    (hdeny : visibilityDenied users lesson auth) :
    (getLessonById users lessons idParam auth).denial = some .PrivateContent := by
  unfold getLessonById
  rw [hvalid, hfind]
  simp only [Bool.not_true, Bool.false_eq_true, if_false]
  cases auth with
  | absent => simp [hvis, GetLessonResp.denial]
  | invalid => simp [hvis, GetLessonResp.denial]
  | valid d =>
    obtain ⟨hnc, hna⟩ := hdeny
    have hcreator : (lesson.creatorEmail == d.email) = false := by
      simpa using hnc
    have hadmin :
        (match users.find? (fun x => x.email == d.email) with
          | some u => u.role == "admin"
          | none => false) = false := by
      cases hu : users.find? (fun x => x.email == d.email) with
      | none => rfl
      | some u => simpa using hna u hu
    simp [hvis, hcreator, hadmin, GetLessonResp.denial]

/-- Closed witness for the C1 theorem at a concrete state: the anonymous
caller on a private premium lesson gets the PrivateContent denial. -/
theorem getLessonById_private_premium_visibility_first_witness :
    (getLessonById [wUser] [wLesson] wOid .absent).denial = some .PrivateContent :=
  getLessonById_private_premium_visibility_first [wUser] [wLesson] wOid .absent wLesson
    (by decide) (by decide) (by decide) (by decide) trivial

/-- C2: in `GET /api/lessons/:id`, for a lesson with `accessLevel=premium`
and `visibility=public`, a caller who is unauthenticated or whose user
record has `isPremium=false` receives the PremiumRequired denial.  The
statement quantifies over arbitrary lessons, callers and user records, so
it holds in particular for the lesson's own creator and for admins: no
exemption exists (the witness instantiates it with a non-premium admin
creator). -/
theorem getLessonById_public_premium_denies_nonpremium
    (users : List User) (lessons : List Lesson) (idParam : String)
    (auth : AuthHeader) (lesson : Lesson)
    (hvalid : isValidObjectId idParam = true)
    (hfind : lessons.find? (fun l => l.id == idParam) = some lesson)
    (hvis : lesson.visibility = "public")
    (hacc : lesson.accessLevel = "premium")
    (hnp : auth = .absent ∨ auth = .invalid ∨
      ∃ d u, auth = .valid d ∧
        users.find? (fun x => x.email == d.email) = some u ∧
        u.isPremium = false) :
    (getLessonById users lessons idParam auth).denial = some .PremiumRequired := by
  unfold getLessonById
  rw [hvalid, hfind]
  simp only [Bool.not_true, Bool.false_eq_true, if_false]
  have hvis' : (lesson.visibility == "private") = false := by simp [hvis]
  rcases hnp with rfl | rfl | ⟨d, u, rfl, hu, hp⟩
  · simp [hvis', hacc, GetLessonResp.denial]
  · simp [hvis', hacc, GetLessonResp.denial]
  · simp [hvis', hacc, hu, hp, GetLessonResp.denial]

/-- Closed witness for the C2 theorem at a concrete state: the lesson's
own creator, an admin with `isPremium=false`, is denied a public premium
lesson with the PremiumRequired denial. -/
theorem getLessonById_public_premium_denies_nonpremium_witness :
    (getLessonById [wCreatorAdmin] [{ wLesson with visibility := "public" }] wOid
        (.valid ⟨"creator@x.com", "u2"⟩)).denial = some .PremiumRequired :=
  getLessonById_public_premium_denies_nonpremium [wCreatorAdmin]
    [{ wLesson with visibility := "public" }] wOid (.valid ⟨"creator@x.com", "u2"⟩)
    { wLesson with visibility := "public" } (by decide) (by decide) rfl (by decide)
    (Or.inr (Or.inr ⟨⟨"creator@x.com", "u2"⟩, wCreatorAdmin, rfl, by decide, rfl⟩))

/- Generic lemmas about the Mongo primitives. -/

/-- Mongo updateOne commutes with findOne when the mutation preserves the
filter: the first match afterwards is the mutated first match. -/
theorem find?_updateFirst (p : α → Bool) (f : α → α)
    (hp : ∀ a, p (f a) = p a) (xs : List α) :
    (updateFirst p f xs).find? p = (xs.find? p).map f := by
  induction xs with
  | nil => rfl
  | cons x xs ih =>
    by_cases hx : p x = true
    · rw [updateFirst, if_pos hx, List.find?_cons_of_pos _ ((hp x).trans hx),
        List.find?_cons_of_pos _ hx]
      rfl
    · rw [updateFirst, if_neg hx,
        List.find?_cons_of_neg _ (by simpa using hx),
        List.find?_cons_of_neg _ (by simpa using hx), ih]

/-- Every element of an updated collection is an old element or the
mutation of the first match. -/
theorem mem_updateFirst_of_find? (p : α → Bool) (f : α → α)
    (xs : List α) (a : α) (h : xs.find? p = some a) :
    ∀ x ∈ updateFirst p f xs, x ∈ xs ∨ x = f a := by
  induction xs with
  | nil => simp at h
  | cons y ys ih =>
    by_cases hy : p y = true
    · rw [List.find?_cons_of_pos _ hy] at h
      injection h with h
      subst h
      intro x hx
      rw [updateFirst, if_pos hy] at hx
      rcases List.mem_cons.mp hx with rfl | hx
      · exact Or.inr rfl
      · exact Or.inl (List.mem_cons_of_mem _ hx)
    · rw [List.find?_cons_of_neg _ (by simpa using hy)] at h
      intro x hx
      rw [updateFirst, if_neg hy] at hx
      rcases List.mem_cons.mp hx with rfl | hx
      · exact Or.inl (List.mem_cons_self _ _)
      · rcases ih h x hx with h' | h'
        · exact Or.inl (List.mem_cons_of_mem _ h')
        · exact Or.inr h'

/-- Decomposition of deleteOne at a found record: the collection splits
around the first match and deleteOne drops exactly that record. -/
theorem deleteFirst_decomp (p : α → Bool) (xs : List α) (a : α)
    (h : xs.find? p = some a) :
    ∃ l₁ l₂, xs = l₁ ++ a :: l₂ ∧ (∀ x ∈ l₁, p x = false) ∧
      deleteFirst p xs = l₁ ++ l₂ := by
  induction xs with
  | nil => simp at h
  | cons y ys ih =>
    by_cases hy : p y = true
    · rw [List.find?_cons_of_pos _ hy] at h
      injection h with h
      subst h
      exact ⟨[], ys, rfl, by simp, by rw [deleteFirst, if_pos hy]; rfl⟩
    · rw [List.find?_cons_of_neg _ (by simpa using hy)] at h
      obtain ⟨l₁, l₂, hsplit, hnone, hdel⟩ := ih h
      refine ⟨y :: l₁, l₂, by rw [hsplit]; rfl, ?_, ?_⟩
      · intro x hx
        rcases List.mem_cons.mp hx with rfl | hx
        · simpa using hy
        · exact hnone x hx
      · rw [deleteFirst, if_neg hy, hdel]; rfl

/-- Elements of a list are bounded by its foldr max. -/
theorem le_foldr_max (l : List Nat) : ∀ a ∈ l, a ≤ l.foldr max 0 := by
  induction l with
  | nil => simp
  | cons x xs ih =>
    intro a ha
    rcases List.mem_cons.mp ha with rfl | ha
    · exact le_max_left _ _
    · exact le_trans (ih a ha) (le_max_right _ _)

/-- The generated id of an inserted favorite collides with no existing
record. -/
theorem freshFid_not_used (favorites : List Favorite) :
    ∀ f ∈ favorites, f.fid ≠ freshFid favorites := by
  intro f hf heq
  have hle : f.fid ≤ (favorites.map (·.fid)).foldr max 0 :=
    le_foldr_max _ _ (List.mem_map_of_mem _ hf)
  rw [freshFid] at heq
  omega

/-- When record ids are unique, findOne by the id of a member returns
that member. -/
theorem find?_fid_self (favorites : List Favorite) (fav : Favorite)
    (hnd : (favorites.map (·.fid)).Nodup) (hmem : fav ∈ favorites) :
    favorites.find? (fun f => f.fid == fav.fid) = some fav := by
  induction favorites with
  | nil => simp at hmem
  | cons y ys ih =>
    rcases List.mem_cons.mp hmem with rfl | hmem
    · exact List.find?_cons_of_pos _ (by simp)
    · have hne : (y.fid == fav.fid) = false := by
        have : y.fid ∉ ys.map (·.fid) := (List.nodup_cons.mp hnd).1
        have : y.fid ≠ fav.fid := fun he =>
          this (he ▸ List.mem_map_of_mem _ hmem)
        simpa using this
      rw [List.find?_cons_of_neg _ (by simp [hne]), ih (List.nodup_cons.mp hnd).2 hmem]

/- C3: identity resolution and user-record creation. -/

/-- C3 counterexample: resolving a verified credential for an email with
no local user record does not persist anything.  With an empty users
collection, `verifyToken` succeeds for `a@x.com` yet leaves the
collection empty — no Caller Identity record is created, contradicting
the claim that a record with `role=user`, `isPremium=false` is persisted
as a side effect of resolution. -/
theorem verifyToken_persists_nothing_counterexample :
    (verifyToken [] (.valid ⟨"a@x.com", "u1"⟩)).2 = [] ∧
    (verifyToken [] (.valid ⟨"a@x.com", "u1"⟩)).1 =
      some { email := "a@x.com", uid := "u1", role := "user", isPremium := false } := by
  constructor <;> rfl

/-- C3 (amended): `verifyToken` never writes the users collection; for a
verified email with no local record it only returns the merged identity
with defaults `role="user"`, `isPremium=false`.  The Caller Identity
record is persisted by the separate sync route `POST /api/users/:email`:
called by the owner of an email with no record it inserts exactly one
record with `role="user"`, `isPremium=false`, and called again once a
record exists it inserts nothing. -/
theorem verifyToken_readonly_syncRoute_creates
    (users : List User) (auth : AuthHeader) (d : Decoded)
    (reqUser : ReqUser) (body : CreateUserBody) (now : Nat)
    (hnew : users.find? (fun u => u.email == d.email) = none)
    (hown : reqUser.email = d.email) :
    (verifyToken users auth).2 = users ∧
    (verifyToken users (.valid d)).1 =
      some { email := d.email, uid := d.uid, role := "user", isPremium := false } ∧
    (createUser users reqUser d.email body now).2 =
      users ++ [{ name := strOrDefault body.name "Anonymous"
                  email := d.email
                  photo := strOrDefault body.photo ""
                  uid := strOrDefault body.uid ""
                  role := "user"
                  favorites := []
                  isPremium := false
                  createdAt := now }] ∧
    (∀ users2 u2, users2.find? (fun u => u.email == d.email) = some u2 →
      (createUser users2 reqUser d.email body now).2 = users2) := by
  refine ⟨?_, ?_, ?_, ?_⟩
  · cases auth <;> rfl
  · simp [verifyToken, hnew]
  · simp [createUser, hown, hnew]
  · intro users2 u2 h2
    simp [createUser, hown, h2]

/-- Closed witness for the amended C3 theorem: a first resolution for
`a@x.com` against an empty collection, followed by the sync route
creating the record, and a repeated sync creating nothing. -/
theorem verifyToken_readonly_syncRoute_creates_witness :
    (verifyToken [] .absent).2 = ([] : List User) ∧
    (verifyToken [] (.valid ⟨"a@x.com", "u1"⟩)).1 =
      some { email := "a@x.com", uid := "u1", role := "user", isPremium := false } ∧
    (createUser [] ⟨"a@x.com", "u1", "user", false⟩ "a@x.com" ⟨none, none, none⟩ 7).2 =
      [] ++ [{ name := strOrDefault none "Anonymous"
               email := "a@x.com"
               photo := strOrDefault none ""
               uid := strOrDefault none ""
               role := "user"
               favorites := []
               isPremium := false
               createdAt := 7 }] ∧
    (∀ users2 u2, users2.find? (fun u => u.email == "a@x.com") = some u2 →
      (createUser users2 ⟨"a@x.com", "u1", "user", false⟩ "a@x.com" ⟨none, none, none⟩ 7).2 = users2) :=
  verifyToken_readonly_syncRoute_creates [] .absent ⟨"a@x.com", "u1"⟩
    ⟨"a@x.com", "u1", "user", false⟩ ⟨none, none, none⟩ 7 (by decide) rfl

/- C9: sync route with a mismatched path email. -/

/-- C9: `POST /api/users/:email` with a path email different from the
authenticated caller's email responds 403 and leaves the users
collection exactly as it was: no record is created or modified for
either email. -/
theorem createUser_mismatch_forbidden_no_write
    (users : List User) (reqUser : ReqUser) (emailParam : String)
    (body : CreateUserBody) (now : Nat)
    (hne : emailParam ≠ reqUser.email) :
    createUser users reqUser emailParam body now = (.forbidden, users) := by
  simp [createUser, hne]

/-- Closed witness for the C9 theorem: syncing `b@x.com` as the caller
`a@x.com` is rejected and writes nothing. -/
theorem createUser_mismatch_forbidden_no_write_witness :
    createUser [wUser] ⟨"a@x.com", "u1", "user", false⟩ "b@x.com" ⟨none, none, none⟩ 7 =
      (.forbidden, [wUser]) :=
  createUser_mismatch_forbidden_no_write [wUser] ⟨"a@x.com", "u1", "user", false⟩
    "b@x.com" ⟨none, none, none⟩ 7 (by decide)

/- C6: the Stripe webhook contract. -/

/-- C6: the payment callback rejects a signature failure with 400 and no
state change; a signature-verified `checkout.session.completed` event
carrying `metadata.userEmail` flips `isPremium` to true on the first user
record with that email (all other records untouched, as captured by the
updateFirst image); and on every signature-verified delivery — in
particular when the internal update fails — the acknowledgment
`received` is returned. -/
theorem stripeWebhook_contract
    (users : List User) (ev : StripeDelivery) (updateFails : Bool)
    (em : String) :
    (ev.sigValid = false → stripeWebhook users ev updateFails = (.badRequest, users)) ∧
    (ev.sigValid = true → ev.eventType = "checkout.session.completed" →
      ev.metaUserEmail = some em → updateFails = false →
      (stripeWebhook users ev updateFails).2 =
        updateFirst (fun u => u.email == em)
          (fun u => { u with isPremium := true }) users ∧
      ((stripeWebhook users ev updateFails).2.find? (fun u => u.email == em)) =
        (users.find? (fun u => u.email == em)).map
          (fun u => { u with isPremium := true })) ∧
    (ev.sigValid = true → (stripeWebhook users ev updateFails).1 = .received) := by
  refine ⟨?_, ?_, ?_⟩
  · intro hs
    simp [stripeWebhook, hs]
  · intro hs ht hm hf
    have h2 : (stripeWebhook users ev updateFails).2 =
        updateFirst (fun u => u.email == em)
          (fun u => { u with isPremium := true }) users := by
      simp [stripeWebhook, hs, ht, hm, hf, Option.or]
    refine ⟨h2, ?_⟩
    rw [h2]
    exact find?_updateFirst (fun u => u.email == em)
      (fun u => { u with isPremium := true }) (fun a => rfl) users
  · intro hs
    unfold stripeWebhook
    rw [hs]
    simp only [Bool.not_true, Bool.false_eq_true, if_false]
    by_cases ht : (ev.eventType == "checkout.session.completed") = true
    · rw [if_pos ht]
      cases ev.metaUserEmail.or ev.clientReferenceId with
      | none => rfl
      | some e => cases updateFails <;> rfl
    · rw [if_neg ht]

/-- Closed witness for the C6 theorem: a bad-signature delivery changes
nothing, and a verified checkout completion for `a@x.com` premium-flags
that user while acknowledging. -/
theorem stripeWebhook_contract_witness :
    stripeWebhook [wUser] ⟨false, "checkout.session.completed", some "a@x.com", none⟩ false =
      (.badRequest, [wUser]) ∧
    (stripeWebhook [wUser] ⟨true, "checkout.session.completed", some "a@x.com", none⟩ false).2 =
      updateFirst (fun u => u.email == "a@x.com")
        (fun u => { u with isPremium := true }) [wUser] ∧
    (stripeWebhook [wUser] ⟨true, "checkout.session.completed", some "a@x.com", none⟩ true).1 =
      .received :=
  ⟨(stripeWebhook_contract [wUser] ⟨false, "checkout.session.completed", some "a@x.com", none⟩
      false "a@x.com").1 rfl,
   ((stripeWebhook_contract [wUser] ⟨true, "checkout.session.completed", some "a@x.com", none⟩
      false "a@x.com").2.1 rfl rfl rfl rfl).1,
   (stripeWebhook_contract [wUser] ⟨true, "checkout.session.completed", some "a@x.com", none⟩
      true "a@x.com").2.2 rfl⟩

/- C8 and C10: the PATCH route. -/

/-- The id of a lesson is untouched by the PATCH update document. -/
theorem applyPatch_id (l : Lesson) (b : PatchBody) (isAdmin : Bool) :
    (applyPatch l b isAdmin).id = l.id := rfl

/-- The PATCH handler on a found, authorized, premium-gate-passing
request whose update document is non-empty responds ok and rewrites
exactly the first id match with the update document. -/
theorem patchLesson_ok_shape
    (lessons : List Lesson) (reqUser : ReqUser) (idParam : String)
    (b : PatchBody) (L : Lesson)
    (hvalid : isValidObjectId idParam = true)
    (hfind : lessons.find? (fun l => l.id == idParam) = some L)
    (hauth : L.creatorEmail = reqUser.email ∨ reqUser.role = "admin")
    (hgate : b.accessLevel = some "premium" → reqUser.isPremium = true)
    (hne : patchSetEmpty b (reqUser.role == "admin") = false) :
    patchLesson lessons reqUser idParam b =
      (.ok, updateFirst (fun l => l.id == idParam)
        (fun l => applyPatch l b (reqUser.role == "admin")) lessons) := by
  unfold patchLesson
  rw [hvalid, hfind]
  simp only [Bool.not_true, Bool.false_eq_true, if_false]
  have hauth' : (!(L.creatorEmail == reqUser.email) && !(reqUser.role == "admin")) = false := by
    rcases hauth with h | h <;> simp [h]
  rw [hauth']
  have hgate' : (b.accessLevel == some "premium" && !reqUser.isPremium) = false := by
    by_cases hb : b.accessLevel = some "premium"
    · simp [hb, hgate hb]
    · simp [hb]
  rw [if_neg (by simp), if_neg (by simp [hgate']), if_neg (by simp [hne])]

/-- The PATCH handler on a found, authorized, premium-gate-passing
request whose update document is empty responds 500 and leaves the
collection untouched: MongoDB rejects the empty set document thrown by
`updateOne` and the catch block answers with the generic error. -/
theorem patchLesson_error_shape
    (lessons : List Lesson) (reqUser : ReqUser) (idParam : String)
    (b : PatchBody) (L : Lesson)
    (hvalid : isValidObjectId idParam = true)
    (hfind : lessons.find? (fun l => l.id == idParam) = some L)
    (hauth : L.creatorEmail = reqUser.email ∨ reqUser.role = "admin")
    (hgate : b.accessLevel = some "premium" → reqUser.isPremium = true)
    (hne : patchSetEmpty b (reqUser.role == "admin") = true) :
    patchLesson lessons reqUser idParam b = (.serverError, lessons) := by
  unfold patchLesson
  rw [hvalid, hfind]
  simp only [Bool.not_true, Bool.false_eq_true, if_false]
  have hauth' : (!(L.creatorEmail == reqUser.email) && !(reqUser.role == "admin")) = false := by
    rcases hauth with h | h <;> simp [h]
  rw [hauth']
  have hgate' : (b.accessLevel == some "premium" && !reqUser.isPremium) = false := by
    by_cases hb : b.accessLevel = some "premium"
    · simp [hb, hgate hb]
    · simp [hb]
  rw [if_neg (by simp), if_neg (by simp [hgate']), if_pos (by simp [hne])]

/-- C8 counterexample: the claim asserts the request of a non-admin
creator succeeds whenever `isFeatured`/`isReviewed` are present; but
when the body carries only those flags, every allowed field is filtered
out, the built set document is empty, `updateOne` throws, and the
handler responds 500 — the request does not succeed (the lesson is
still untouched). -/
theorem patchLesson_flags_only_500_counterexample :
    (patchLesson [wLesson] ⟨"creator@x.com", "u2", "user", false⟩ wOid
      ⟨none, none, none, none, none, none, none, some true, some true⟩).1 ≠ .ok ∧
    patchLesson [wLesson] ⟨"creator@x.com", "u2", "user", false⟩ wOid
      ⟨none, none, none, none, none, none, none, some true, some true⟩ =
      (.serverError, [wLesson]) := by
  constructor
  · decide
  · decide

/-- C8 (amended): when a non-admin creator PATCHes their own lesson with
`isFeatured` and/or `isReviewed` present in the body, the moderation
flags are ignored in every case; if at least one allowed field survives
the truthiness filter the request succeeds, the other supplied allowed
fields are applied and the flags are unchanged, while a body whose
allowed fields all filter out (for example flags only) makes the update
document empty and the handler responds 500 with the lesson untouched. -/
theorem patchLesson_nonadmin_moderation_ignored
    (lessons : List Lesson) (reqUser : ReqUser) (idParam : String)
    (b : PatchBody) (L : Lesson)
    (hvalid : isValidObjectId idParam = true)
    (hfind : lessons.find? (fun l => l.id == idParam) = some L)
    (hcreator : L.creatorEmail = reqUser.email)
    (hnotadmin : reqUser.role ≠ "admin")
    (hgate : b.accessLevel = some "premium" → reqUser.isPremium = true)
    (hpresent : b.isFeatured.isSome ∨ b.isReviewed.isSome) :
    (patchSetEmpty b false = false →
      (patchLesson lessons reqUser idParam b).1 = .ok ∧
      (patchLesson lessons reqUser idParam b).2.find? (fun l => l.id == idParam) =
        some (applyPatch L b false) ∧
      (applyPatch L b false).isFeatured = L.isFeatured ∧
      (applyPatch L b false).isReviewed = L.isReviewed) ∧
    (patchSetEmpty b false = true →
      patchLesson lessons reqUser idParam b = (.serverError, lessons)) := by
  have hadmin : (reqUser.role == "admin") = false := by simpa using hnotadmin
  constructor
  · intro hne
    have hne' : patchSetEmpty b (reqUser.role == "admin") = false := by
      rw [hadmin]
      exact hne
    have hshape := patchLesson_ok_shape lessons reqUser idParam b L hvalid hfind
      (Or.inl hcreator) hgate hne'
    rw [hadmin] at hshape
    refine ⟨by rw [hshape], ?_, by simp [applyPatch], by simp [applyPatch]⟩
    rw [hshape]
    have := find?_updateFirst (fun l => l.id == idParam)
      (fun l => applyPatch l b false) (fun a => by simp only [applyPatch_id]) lessons
    rw [this, hfind]
    rfl
  · intro hne
    have hne' : patchSetEmpty b (reqUser.role == "admin") = true := by
      rw [hadmin]
      exact hne
    exact patchLesson_error_shape lessons reqUser idParam b L hvalid hfind
      (Or.inl hcreator) hgate hne'

/-- Closed witness for the amended C8 theorem: the non-premium,
non-admin creator of `wLesson` sends a PATCH with a truthy title and
both moderation flags; the call succeeds and the flags stay false, and
the empty-document branch is vacuous for this body. -/
theorem patchLesson_nonadmin_moderation_ignored_witness :
    (patchSetEmpty ⟨some "new title", none, none, none, none, none, none, some true, some true⟩
        false = false →
      (patchLesson [wLesson] ⟨"creator@x.com", "u2", "user", false⟩ wOid
        ⟨some "new title", none, none, none, none, none, none, some true, some true⟩).1 = .ok ∧
      (patchLesson [wLesson] ⟨"creator@x.com", "u2", "user", false⟩ wOid
        ⟨some "new title", none, none, none, none, none, none, some true, some true⟩).2.find?
          (fun l => l.id == wOid) =
        some (applyPatch wLesson
          ⟨some "new title", none, none, none, none, none, none, some true, some true⟩ false) ∧
      (applyPatch wLesson
        ⟨some "new title", none, none, none, none, none, none, some true, some true⟩
          false).isFeatured = wLesson.isFeatured ∧
      (applyPatch wLesson
        ⟨some "new title", none, none, none, none, none, none, some true, some true⟩
          false).isReviewed = wLesson.isReviewed) ∧
    (patchSetEmpty ⟨some "new title", none, none, none, none, none, none, some true, some true⟩
        false = true →
      patchLesson [wLesson] ⟨"creator@x.com", "u2", "user", false⟩ wOid
        ⟨some "new title", none, none, none, none, none, none, some true, some true⟩ =
        (.serverError, [wLesson])) :=
  patchLesson_nonadmin_moderation_ignored [wLesson] ⟨"creator@x.com", "u2", "user", false⟩
    wOid ⟨some "new title", none, none, none, none, none, none, some true, some true⟩ wLesson
    (by decide) (by decide) (by decide) (by decide) (fun h => by simp at h) (Or.inl rfl)

/-- C10 counterexample: the claim asserts a PATCH carrying an
empty-string field still succeeds; but when every present field is the
empty string (and nothing else is present) the whole update document is
empty, `updateOne` throws, and the handler responds 500 instead of
succeeding (the lesson is untouched). -/
theorem patchLesson_all_empty_500_counterexample :
    (patchLesson [wLesson] ⟨"admin@x.com", "u9", "admin", false⟩ wOid
      ⟨some "", some "", some "", some "", none, some "", some "", none, none⟩).1 ≠ .ok ∧
    patchLesson [wLesson] ⟨"admin@x.com", "u9", "admin", false⟩ wOid
      ⟨some "", some "", some "", some "", none, some "", some "", none, none⟩ =
      (.serverError, [wLesson]) := by
  constructor
  · decide
  · decide

/-- C10 (amended): a PATCH whose body carries a string field set to the
empty string leaves that field of the lesson unchanged, exactly like an
absent field; the request succeeds provided at least one field of the
body survives the truthiness filter (so the update document is
non-empty), and when every present field filters out the handler
responds 500 with the lesson untouched. -/
theorem patchLesson_empty_string_leaves_field
    (lessons : List Lesson) (reqUser : ReqUser) (idParam : String)
    (b : PatchBody) (L : Lesson)
    (hvalid : isValidObjectId idParam = true)
    (hfind : lessons.find? (fun l => l.id == idParam) = some L)
    (hauth : L.creatorEmail = reqUser.email ∨ reqUser.role = "admin")
    (hgate : b.accessLevel = some "premium" → reqUser.isPremium = true) :
    (patchSetEmpty b (reqUser.role == "admin") = false →
      (patchLesson lessons reqUser idParam b).1 = .ok ∧
      ∀ L', (patchLesson lessons reqUser idParam b).2.find? (fun l => l.id == idParam) =
          some L' →
        (b.title = some "" → L'.title = L.title) ∧
        (b.description = some "" → L'.description = L.description) ∧
        (b.category = some "" → L'.category = L.category) ∧
        (b.emotionalTone = some "" → L'.emotionalTone = L.emotionalTone) ∧
        (b.visibility = some "" → L'.visibility = L.visibility) ∧
        (b.accessLevel = some "" → L'.accessLevel = L.accessLevel)) ∧
    (patchSetEmpty b (reqUser.role == "admin") = true →
      patchLesson lessons reqUser idParam b = (.serverError, lessons)) := by
  constructor
  · intro hne
    have hshape := patchLesson_ok_shape lessons reqUser idParam b L hvalid hfind hauth
      hgate hne
    refine ⟨by rw [hshape], ?_⟩
    intro L' hL'
    rw [hshape] at hL'
    have := find?_updateFirst (fun l => l.id == idParam)
      (fun l => applyPatch l b (reqUser.role == "admin"))
      (fun a => by simp only [applyPatch_id]) lessons
    rw [this, hfind] at hL'
    have hL'' : L' = applyPatch L b (reqUser.role == "admin") := by
      simpa using hL'.symm
    subst hL''
    refine ⟨?_, ?_, ?_, ?_, ?_, ?_⟩ <;> intro hb <;>
      simp [applyPatch, setIfTruthy, hb]
  · intro hne
    exact patchLesson_error_shape lessons reqUser idParam b L hvalid hfind hauth hgate hne

/-- Closed witness for the amended C10 theorem: an admin PATCH with
every string field empty but `image` present keeps a non-empty update
document; the request succeeds and none of the empty-string fields
change. -/
theorem patchLesson_empty_string_leaves_field_witness :
    (patchSetEmpty ⟨some "", some "", some "", some "", some "pic", some "", some "", none, none⟩
        (("admin" : String) == "admin") = false →
      (patchLesson [wLesson] ⟨"admin@x.com", "u9", "admin", false⟩ wOid
        ⟨some "", some "", some "", some "", some "pic", some "", some "", none, none⟩).1 = .ok ∧
      ∀ L', (patchLesson [wLesson] ⟨"admin@x.com", "u9", "admin", false⟩ wOid
          ⟨some "", some "", some "", some "", some "pic", some "", some "", none, none⟩).2.find?
            (fun l => l.id == wOid) = some L' →
        (some "" = some "" → L'.title = wLesson.title) ∧
        (some "" = some "" → L'.description = wLesson.description) ∧
        (some "" = some "" → L'.category = wLesson.category) ∧
        (some "" = some "" → L'.emotionalTone = wLesson.emotionalTone) ∧
        (some "" = some "" → L'.visibility = wLesson.visibility) ∧
        (some "" = some "" → L'.accessLevel = wLesson.accessLevel)) ∧
    (patchSetEmpty ⟨some "", some "", some "", some "", some "pic", some "", some "", none, none⟩
        (("admin" : String) == "admin") = true →
      patchLesson [wLesson] ⟨"admin@x.com", "u9", "admin", false⟩ wOid
        ⟨some "", some "", some "", some "", some "pic", some "", some "", none, none⟩ =
        (.serverError, [wLesson])) :=
  patchLesson_empty_string_leaves_field [wLesson] ⟨"admin@x.com", "u9", "admin", false⟩
    wOid ⟨some "", some "", some "", some "", some "pic", some "", some "", none, none⟩ wLesson
    (by decide) (by decide) (Or.inr rfl) (fun h => by simp at h)

/- C4: the like-counter invariant. -/

/-- Well-formedness of a lesson's like state: the denormalized counter
equals the cardinality of the like set, and the like set has no
duplicate emails. -/
def likeInv (l : Lesson) : Prop :=
  l.likesCount = (l.likes.length : Int) ∧ l.likes.Nodup

instance (l : Lesson) : Decidable (likeInv l) := by
  unfold likeInv; infer_instance

/-- One toggle-like call preserves the like invariant of every lesson in
the collection. -/
theorem toggleLike_preserves_likeInv
    (lessons : List Lesson) (userEmail idParam : String)
    (h : ∀ l ∈ lessons, likeInv l) :
    ∀ l ∈ (toggleLike lessons userEmail idParam).2, likeInv l := by
  intro l hl
  unfold toggleLike at hl
  by_cases hvalid : isValidObjectId idParam = true
  · rw [hvalid] at hl
    simp only [Bool.not_true, Bool.false_eq_true, if_false] at hl
    cases hfind : lessons.find? (fun x => x.id == idParam) with
    | none =>
      rw [hfind] at hl
      exact h l (by simpa using hl)
    | some lesson =>
      have hmem : lesson ∈ lessons := List.mem_of_find?_eq_some hfind
      have hinv := h lesson hmem
      rw [hfind] at hl
      by_cases hliked : lesson.likes.contains userEmail = true
      · simp only [hliked, if_true] at hl
        rcases mem_updateFirst_of_find? _ _ lessons lesson hfind l hl with hl' | hl'
        · exact h l hl'
        · subst hl'
          have he : userEmail ∈ lesson.likes := by
            simpa using hliked
          have hfilter : lesson.likes.filter (fun e => e != userEmail) =
              lesson.likes.erase userEmail :=
            (List.Nodup.erase_eq_filter hinv.2 userEmail).symm
          constructor
          · show lesson.likesCount - 1 = _
            rw [hfilter]
            have hlen := List.length_erase_of_mem he
            have hpos : 0 < lesson.likes.length := List.length_pos.mpr
              (List.ne_nil_of_mem he)
            rw [hinv.1, hlen]
            omega
          · show (lesson.likes.filter _).Nodup
            exact List.Nodup.filter _ hinv.2
      · simp only [hliked, Bool.false_eq_true, if_false] at hl
        rcases mem_updateFirst_of_find? _ _ lessons lesson hfind l hl with hl' | hl'
        · exact h l hl'
        · subst hl'
          have he : userEmail ∉ lesson.likes := by
            simpa using hliked
          have hc : (lesson.likes.contains userEmail) = false :=
            eq_false_of_ne_true hliked
          simp only [hc, Bool.false_eq_true, if_false]
          constructor
          · show lesson.likesCount + 1 = ((lesson.likes ++ [userEmail]).length : Int)
            rw [hinv.1, List.length_append, List.length_singleton]
            push_cast
            ring
          · show (lesson.likes ++ [userEmail]).Nodup
            simp [List.nodup_append, hinv.2, he]
  · rw [eq_false_of_ne_true hvalid] at hl
    exact h l (by simpa using hl)

/-- C4: a lesson collection in which every lesson satisfies
`likesCount = |likes|` with duplicate-free `likes` keeps satisfying
`likesCount = |likes|` after any finite sequence of sequentially executed
toggle-like calls by arbitrary callers on arbitrary ids. -/
theorem toggleLike_sequence_preserves_count
    (lessons : List Lesson) (calls : List (String × String))
    (h : ∀ l ∈ lessons, likeInv l) :
    ∀ l ∈ calls.foldl (fun ls c => (toggleLike ls c.1 c.2).2) lessons,
      l.likesCount = (l.likes.length : Int) := by
  suffices hs : ∀ l ∈ calls.foldl (fun ls c => (toggleLike ls c.1 c.2).2) lessons, likeInv l by
    exact fun l hl => (hs l hl).1
  induction calls generalizing lessons with
  | nil => simpa using h
  | cons c cs ih =>
    intro l hl
    exact ih (toggleLike lessons c.1 c.2).2
      (toggleLike_preserves_likeInv lessons c.1 c.2 h) l hl

/-- Closed witness for the C4 theorem: after the call sequence
like(a), like(b), unlike(a) on `wLesson`, the surviving like state is
`likes = [b]` with `likesCount = 1`, and the invariant conclusion applies
to it. -/
theorem toggleLike_sequence_preserves_count_witness :
    ({ wLesson with likes := ["b@x.com"], likesCount := 1 } : Lesson).likesCount =
      (({ wLesson with likes := ["b@x.com"], likesCount := 1 } : Lesson).likes.length : Int) :=
  toggleLike_sequence_preserves_count [wLesson]
    [("a@x.com", wOid), ("b@x.com", wOid), ("a@x.com", wOid)]
    (by decide) { wLesson with likes := ["b@x.com"], likesCount := 1 } (by decide)

/- C7: report views after a lesson deletion. -/

/-- The DELETE handler on a found lesson with an authorized caller
responds ok and removes the first id match. -/
theorem deleteLesson_ok_shape
    (lessons : List Lesson) (reqUser : ReqUser) (idParam : String) (L : Lesson)
    (hvalid : isValidObjectId idParam = true)
    (hfind : lessons.find? (fun l => l.id == idParam) = some L)
    (hauth : L.creatorEmail = reqUser.email ∨ reqUser.role = "admin") :
    deleteLesson lessons reqUser idParam =
      (.ok, deleteFirst (fun l => l.id == idParam) lessons) := by
  unfold deleteLesson
  rw [hvalid, hfind]
  simp only [Bool.not_true, Bool.false_eq_true, if_false]
  have hauth' : (!(L.creatorEmail == reqUser.email) && !(reqUser.role == "admin")) = false := by
    rcases hauth with h | h <;> simp [h]
  rw [if_neg (by simp [hauth'])]

/-- When lesson ids are unique, deleting a lesson leaves no lesson with
its id in the collection. -/
theorem deleteLesson_no_id_left
    (lessons : List Lesson) (idParam : String) (L : Lesson)
    (hfind : lessons.find? (fun l => l.id == idParam) = some L)
    (hids : (lessons.map (·.id)).Nodup) :
    ∀ l ∈ deleteFirst (fun l => l.id == idParam) lessons, (l.id == idParam) = false := by
  obtain ⟨l₁, l₂, hsplit, hnone, hdel⟩ :=
    deleteFirst_decomp (fun l => l.id == idParam) lessons L hfind
  have hLid : L.id = idParam := by
    have := List.find?_some hfind
    simpa using this
  have hl₂ : ∀ l ∈ l₂, (l.id == idParam) = false := by
    have hsub : List.Sublist (L :: l₂) lessons := by
      rw [hsplit]
      exact List.sublist_append_right l₁ (L :: l₂)
    have hnd : ((L :: l₂).map (·.id)).Nodup :=
      List.Nodup.sublist (List.Sublist.map _ hsub) hids
    have hnotin : L.id ∉ l₂.map (·.id) := by
      rw [List.map_cons] at hnd
      exact (List.nodup_cons.mp hnd).1
    intro l hl
    by_contra hcon
    have : l.id = idParam := by simpa using hcon
    exact hnotin (by rw [hLid, ← this]; exact List.mem_map_of_mem _ hl)
  rw [hdel]
  intro l hl
  rcases List.mem_append.mp hl with h | h
  · exact hnone l h
  · exact hl₂ l h

/-- C7: after an authorized deletion of a lesson that has reports, the
admin report listing still returns every report referencing it, with the
joined `lesson` field absent, while the aggregated reported-lessons view
contains no row for the deleted lesson. -/
theorem deleted_lesson_report_views
    (reports : List Report) (lessons : List Lesson) (reqUser : ReqUser)
    (idParam : String) (L : Lesson)
    (hvalid : isValidObjectId idParam = true)
    (hfind : lessons.find? (fun l => l.id == idParam) = some L)
    (hauth : L.creatorEmail = reqUser.email ∨ reqUser.role = "admin")
    (hids : (lessons.map (·.id)).Nodup) :
    (deleteLesson lessons reqUser idParam).1 = .ok ∧
    (∀ r ∈ reports, r.lessonId = idParam →
      ∀ rows, listReports reports (deleteLesson lessons reqUser idParam).2 none = .ok rows →
        ({ rid := r.rid, lessonId := r.lessonId, reason := r.reason
           reporterEmail := r.reporterEmail, createdAt := r.createdAt
           lesson := none } : ReportJoined) ∈ rows) ∧
    (∀ row ∈ aggregatedReportedLessons reports (deleteLesson lessons reqUser idParam).2,
      row.id ≠ idParam) := by
  have hshape := deleteLesson_ok_shape lessons reqUser idParam L hvalid hfind hauth
  have hleft := deleteLesson_no_id_left lessons idParam L hfind hids
  rw [hshape]
  refine ⟨rfl, ?_, ?_⟩
  · intro r hr hrid rows hrows
    have hrows' : rows =
        ((reports.flatMap
            (lookupUnwindPreserve (deleteFirst (fun l => l.id == idParam) lessons))).mergeSort
          fun a b => Nat.ble b.createdAt a.createdAt) := by
      have := hrows
      unfold listReports at this
      injection this with h
      exact h.symm
    rw [hrows', List.mem_mergeSort]
    refine List.mem_flatMap.mpr ⟨r, hr, ?_⟩
    have hfilter :
        (deleteFirst (fun l => l.id == idParam) lessons).filter
          (fun l => l.id == r.lessonId) = [] := by
      rw [List.filter_eq_nil_iff]
      intro l hl
      rw [hrid]
      simp [hleft l hl]
    unfold lookupUnwindPreserve
    rw [hfilter]
    simp
  · intro row hrow
    unfold aggregatedReportedLessons at hrow
    obtain ⟨gid, hgid, hrow'⟩ := List.mem_flatMap.mp hrow
    obtain ⟨l, hl, hproj⟩ := List.mem_map.mp hrow'
    have hlmem : l ∈ deleteFirst (fun x => x.id == idParam) lessons :=
      List.mem_of_mem_filter hl
    have : (l.id == idParam) = false := hleft l hlmem
    intro hcon
    rw [← hproj] at hcon
    simp only at hcon
    rw [hcon] at this
    simp at this

/-- A concrete report against `wLesson`, shared by the C7 witness. -/
def wReport : Report :=
  { rid := 3
    lessonId := wOid
    reason := "spam"
    reporterEmail := "a@x.com"
    createdAt := 9 }

/-- Closed witness for the C7 theorem: the admin deletes `wLesson`, its
report is still listed with the lesson field absent, and the aggregated
view drops the group. -/
theorem deleted_lesson_report_views_witness :
    (deleteLesson [wLesson] ⟨"admin@x.com", "u9", "admin", false⟩ wOid).1 = .ok ∧
    (∀ r ∈ [wReport], r.lessonId = wOid →
      ∀ rows, listReports [wReport]
          (deleteLesson [wLesson] ⟨"admin@x.com", "u9", "admin", false⟩ wOid).2 none = .ok rows →
        ({ rid := r.rid, lessonId := r.lessonId, reason := r.reason
           reporterEmail := r.reporterEmail, createdAt := r.createdAt
           lesson := none } : ReportJoined) ∈ rows) ∧
    (∀ row ∈ aggregatedReportedLessons [wReport]
        (deleteLesson [wLesson] ⟨"admin@x.com", "u9", "admin", false⟩ wOid).2,
      row.id ≠ wOid) :=
  deleted_lesson_report_views [wReport] [wLesson] ⟨"admin@x.com", "u9", "admin", false⟩
    wOid wLesson (by decide) (by decide) (Or.inr rfl) (by decide)

/- C5: the favorite double-toggle. -/

/-- Membership of a (caller, lesson) pair in the standalone favorites
relation records. -/
@[reducible]
def favRelMember (favorites : List Favorite) (e idParam : String) : Prop :=
  ∃ f ∈ favorites, (f.userEmail == e && f.lessonId == idParam) = true

/-- Membership of a lesson id in the denormalized favorites array of the
caller's user record (first record matching the email, as findOne and
updateOne see it). -/
@[reducible]
def favArrMember (users : List User) (e idParam : String) : Prop :=
  ∃ u, users.find? (fun x => x.email == e) = some u ∧ idParam ∈ u.favorites

instance (users : List User) (e idParam : String) :
    Decidable (favArrMember users e idParam) :=
  match h : users.find? (fun x => x.email == e) with
  | some u =>
    if hm : idParam ∈ u.favorites then
      isTrue ⟨u, h, hm⟩
    else
      isFalse fun ⟨v, hv, hmv⟩ => by
        rw [h] at hv
        injection hv with hv
        exact hm (hv ▸ hmv)
  | none => isFalse fun ⟨v, hv, _⟩ => by rw [h] at hv; cases hv

/-- The favorite toggle on an existing relation record: response
`removed`, pull from the user's array, deleteOne the record by id. -/
theorem toggleFavorite_removed_shape
    (users : List User) (favorites : List Favorite) (lessons : List Lesson)
    (e idParam : String) (now : Nat) (L : Lesson) (fav : Favorite)
    (hvalid : isValidObjectId idParam = true)
    (hlesson : lessons.find? (fun l => l.id == idParam) = some L)
    (hfav : favorites.find? (fun f => f.userEmail == e && f.lessonId == idParam) = some fav) :
    toggleFavorite users favorites lessons e idParam now =
      (.removed,
       updateFirst (fun u => u.email == e)
         (fun u => { u with favorites := u.favorites.filter fun s => s != idParam }) users,
       deleteFirst (fun f => f.fid == fav.fid) favorites) := by
  unfold toggleFavorite
  rw [hvalid]
  simp only [Bool.not_true, Bool.false_eq_true, if_false, hlesson, hfav]

/-- The favorite toggle with no relation record: response `added`,
addToSet on the user's array, insert a fresh record. -/
theorem toggleFavorite_added_shape
    (users : List User) (favorites : List Favorite) (lessons : List Lesson)
    (e idParam : String) (now : Nat) (L : Lesson)
    (hvalid : isValidObjectId idParam = true)
    (hlesson : lessons.find? (fun l => l.id == idParam) = some L)
    (hfav : favorites.find? (fun f => f.userEmail == e && f.lessonId == idParam) = none) :
    toggleFavorite users favorites lessons e idParam now =
      (.added,
       updateFirst (fun u => u.email == e)
         (fun u => { u with favorites :=
            if u.favorites.contains idParam then u.favorites else u.favorites ++ [idParam] }) users,
       favorites ++ [(⟨freshFid favorites, e, idParam, now⟩ : Favorite)]) := by
  unfold toggleFavorite
  rw [hvalid]
  simp only [Bool.not_true, Bool.false_eq_true, if_false, hlesson, hfav]

/-- deleteOne of an appended record whose filter matches nothing in the
prefix removes exactly the appended record. -/
theorem deleteFirst_append_singleton (p : α → Bool) (xs : List α) (y : α)
    (h : ∀ x ∈ xs, p x = false) (hy : p y = true) :
    deleteFirst p (xs ++ [y]) = xs := by
  induction xs with
  | nil => simp [deleteFirst, hy]
  | cons x xs ih =>
    have hx : p x = false := h x (List.mem_cons_self _ _)
    show deleteFirst p (x :: (xs ++ [y])) = x :: xs
    rw [deleteFirst, if_neg (by simp [hx]),
      ih fun z hz => h z (List.mem_cons_of_mem _ hz)]

/-- C5: for an existing lesson, two sequential favorite toggles by the
same caller restore the original membership state of the (caller,
lesson) pair in both representations, given that relation-record ids are
unique, the pair has at most one relation record, and the two
representations initially agree on the pair. -/
theorem toggleFavorite_twice_restores_membership
    (users : List User) (favorites : List Favorite) (lessons : List Lesson)
    (e idParam : String) (now1 now2 : Nat) (L : Lesson)
    (hvalid : isValidObjectId idParam = true)
    (hlesson : lessons.find? (fun l => l.id == idParam) = some L)
    (hfids : (favorites.map (·.fid)).Nodup)
    (hdup : favorites.countP (fun f => f.userEmail == e && f.lessonId == idParam) ≤ 1)
    (hagree : favRelMember favorites e idParam ↔ favArrMember users e idParam) :
    (favRelMember (toggleFavorite
        (toggleFavorite users favorites lessons e idParam now1).2.1
        (toggleFavorite users favorites lessons e idParam now1).2.2
        lessons e idParam now2).2.2 e idParam ↔
      favRelMember favorites e idParam) ∧
    (favArrMember (toggleFavorite
        (toggleFavorite users favorites lessons e idParam now1).2.1
        (toggleFavorite users favorites lessons e idParam now1).2.2
        lessons e idParam now2).2.1 e idParam ↔
      favArrMember users e idParam) := by
  cases hfav0 : favorites.find? (fun f => f.userEmail == e && f.lessonId == idParam) with
  | some fav =>
    have hfavmem : fav ∈ favorites := List.mem_of_find?_eq_some hfav0
    have hpair : (fav.userEmail == e && fav.lessonId == idParam) = true := by
      simpa using List.find?_some hfav0
    have h1 := toggleFavorite_removed_shape users favorites lessons e idParam now1 L fav
      hvalid hlesson hfav0
    obtain ⟨l₁, l₂, hsplit, hnone, hdel⟩ :=
      deleteFirst_decomp (fun f => f.fid == fav.fid) favorites fav
        (find?_fid_self favorites fav hfids hfavmem)
    have hc0 : (deleteFirst (fun f => f.fid == fav.fid) favorites).countP
        (fun f => f.userEmail == e && f.lessonId == idParam) = 0 := by
      rw [hdel, List.countP_append]
      have hd := hdup
      rw [hsplit, List.countP_append, List.countP_cons, hpair] at hd
      simp only [if_true] at hd
      omega
    have hnofind : (deleteFirst (fun f => f.fid == fav.fid) favorites).find?
        (fun f => f.userEmail == e && f.lessonId == idParam) = none := by
      rw [List.find?_eq_none]
      intro x hx hpx
      exact List.countP_eq_zero.mp hc0 x hx hpx
    have h2 := toggleFavorite_added_shape
      (updateFirst (fun u => u.email == e)
        (fun u => { u with favorites := u.favorites.filter fun s => s != idParam }) users)
      (deleteFirst (fun f => f.fid == fav.fid) favorites)
      lessons e idParam now2 L hvalid hlesson hnofind
    rw [h1]
    simp only
    rw [h2]
    simp only
    have hrel0 : favRelMember favorites e idParam := ⟨fav, hfavmem, hpair⟩
    obtain ⟨u, hu, hmemArr⟩ := hagree.mp hrel0
    constructor
    · refine iff_of_true ?_ hrel0
      exact ⟨⟨freshFid (deleteFirst (fun f => f.fid == fav.fid) favorites), e, idParam, now2⟩,
        List.mem_append.mpr (Or.inr (List.mem_singleton.mpr rfl)), by simp⟩
    · refine iff_of_true ?_ ⟨u, hu, hmemArr⟩
      have hf1 := find?_updateFirst (fun x => x.email == e)
        (fun u => { u with favorites := u.favorites.filter fun s => s != idParam })
        (fun a => rfl) users
      have hf2 := find?_updateFirst (fun x => x.email == e)
        (fun u => { u with favorites :=
          if u.favorites.contains idParam then u.favorites else u.favorites ++ [idParam] })
        (fun a => rfl)
        (updateFirst (fun x => x.email == e)
          (fun u => { u with favorites := u.favorites.filter fun s => s != idParam }) users)
      refine ⟨_, by rw [hf2, hf1, hu]; rfl, ?_⟩
      show idParam ∈
        (if (u.favorites.filter fun s => s != idParam).contains idParam
          then u.favorites.filter fun s => s != idParam
          else (u.favorites.filter fun s => s != idParam) ++ [idParam])
      by_cases hc : (u.favorites.filter fun s => s != idParam).contains idParam = true
      · rw [if_pos hc]
        simpa using hc
      · rw [if_neg hc]
        exact List.mem_append.mpr (Or.inr (List.mem_singleton.mpr rfl))
  | none =>
    have h1 := toggleFavorite_added_shape users favorites lessons e idParam now1 L
      hvalid hlesson hfav0
    have hnew : (favorites ++ [(⟨freshFid favorites, e, idParam, now1⟩ : Favorite)]).find?
        (fun f => f.userEmail == e && f.lessonId == idParam) =
        some (⟨freshFid favorites, e, idParam, now1⟩ : Favorite) := by
      rw [List.find?_append, hfav0]
      simp
    have h2 := toggleFavorite_removed_shape
      (updateFirst (fun u => u.email == e)
        (fun u => { u with favorites :=
          if u.favorites.contains idParam then u.favorites else u.favorites ++ [idParam] }) users)
      (favorites ++ [(⟨freshFid favorites, e, idParam, now1⟩ : Favorite)])
      lessons e idParam now2 L
      (⟨freshFid favorites, e, idParam, now1⟩ : Favorite)
      hvalid hlesson hnew
    rw [h1]
    simp only
    rw [h2]
    simp only
    have hback : deleteFirst
        (fun f => f.fid == (⟨freshFid favorites, e, idParam, now1⟩ : Favorite).fid)
        (favorites ++ [(⟨freshFid favorites, e, idParam, now1⟩ : Favorite)]) = favorites := by
      refine deleteFirst_append_singleton _ favorites _ ?_ (by simp)
      intro x hx
      have := freshFid_not_used favorites x hx
      simpa using this
    have hrel0 : ¬ favRelMember favorites e idParam := by
      rintro ⟨f, hf, hp⟩
      exact List.find?_eq_none.mp hfav0 f hf hp
    have harr0 : ¬ favArrMember users e idParam := fun h => hrel0 (hagree.mpr h)
    constructor
    · rw [hback]
    · refine iff_of_false ?_ harr0
      rintro ⟨v, hv, hmv⟩
      have hf1 := find?_updateFirst (fun x => x.email == e)
        (fun u => { u with favorites :=
          if u.favorites.contains idParam then u.favorites else u.favorites ++ [idParam] })
        (fun a => rfl) users
      have hf2 := find?_updateFirst (fun x => x.email == e)
        (fun u => { u with favorites := u.favorites.filter fun s => s != idParam })
        (fun a => rfl)
        (updateFirst (fun x => x.email == e)
          (fun u => { u with favorites :=
            if u.favorites.contains idParam then u.favorites else u.favorites ++ [idParam] }) users)
      rw [hf2, hf1] at hv
      cases hu : users.find? (fun x => x.email == e) with
      | none =>
        rw [hu] at hv
        cases hv
      | some u =>
        rw [hu] at hv
        injection hv with hv
        rw [← hv] at hmv
        have hmem : idParam ∈ List.filter (fun s => s != idParam)
            (if u.favorites.contains idParam then u.favorites else u.favorites ++ [idParam]) := hmv
        rw [List.mem_filter] at hmem
        simp at hmem

/-- Closed witness for the C5 theorem: the caller favorites `wLesson`
twice from an initially favorite-free state; both representations end
where they started. -/
theorem toggleFavorite_twice_restores_membership_witness :
    (favRelMember (toggleFavorite
        (toggleFavorite [wUser] [] [wLesson] "a@x.com" wOid 1).2.1
        (toggleFavorite [wUser] [] [wLesson] "a@x.com" wOid 1).2.2
        [wLesson] "a@x.com" wOid 2).2.2 "a@x.com" wOid ↔
      favRelMember [] "a@x.com" wOid) ∧
    (favArrMember (toggleFavorite
        (toggleFavorite [wUser] [] [wLesson] "a@x.com" wOid 1).2.1
        (toggleFavorite [wUser] [] [wLesson] "a@x.com" wOid 1).2.2
        [wLesson] "a@x.com" wOid 2).2.1 "a@x.com" wOid ↔
      favArrMember [wUser] "a@x.com" wOid) :=
  toggleFavorite_twice_restores_membership [wUser] [] [wLesson] "a@x.com" wOid 1 2 wLesson
    (by decide) (by decide) (by decide) (by decide) (by decide)

end Rewise
